import Mathlib

/-!
Shallow embedding of the nina_xmpp alert bot (src/nina_xmpp).

Python floats are modelled as exact rationals (ℚ); the decimal literals
appearing in feed polygons and user coordinate input are exact in this model.
Strings are modelled as `List Char`.  The XMPP / HTTP / spatialite layers are
external collaborators: XMPP output is modelled as a trace of `Action`s, HTTP
responses as a `FetchResult` oracle, and the spatialite `ST_Distance`
comparison as an abstract boolean predicate on points and multipolygons.
-/

namespace NinaXmpp

/-- The separator class of the regular expression `[, ]+` used by
`helper.parse_area`. -/
def isSepChar (c : Char) : Bool := c = ',' || c = ' '

/-- Drop a maximal run of separator characters (the `+` in `[, ]+`). -/
def dropSeps : List Char → List Char
  | [] => []
  | c :: cs => if isSepChar c then dropSeps cs else c :: cs

/-- `re.split(r'[, ]+', s, 1)`: split `s` at the first maximal run of commas
and spaces.  `none` models the single-element result list, which makes the
two-variable unpacking in `parse_area` raise `ValueError`. -/
def splitSep1 : List Char → Option (List Char × List Char)
  | [] => none
  | c :: cs =>
    if isSepChar c then some ([], dropSeps cs)
    else (splitSep1 cs).map (fun p => (c :: p.1, p.2))

/-- Split at the first `'.'`, reporting whether a dot was found
(used to model Python `float()` on decimal literals). -/
def splitDot1 : List Char → List Char × Option (List Char)
  | [] => ([], none)
  | c :: cs =>
    if c = '.' then ([], some cs)
    else
      let p := splitDot1 cs
      (c :: p.1, p.2)

def isDigitChar (c : Char) : Bool := '0' ≤ c && c ≤ '9'

/-- Numeric value of a digit string. -/
def digitsVal (l : List Char) : Nat :=
  l.foldl (fun a c => a * 10 + (c.toNat - 48)) 0

/-- The unsigned part of Python `float()` on decimal literals: digits with
an optional single decimal point, at least one digit in total. -/
def parseFloatCore (t : List Char) : Option ℚ :=
  match splitDot1 t with
  | (ip, none) =>
    if ip ≠ [] ∧ ip.all isDigitChar then
      some (digitsVal ip : ℚ)
    else none
  | (ip, some fp) =>
    if (ip ≠ [] ∨ fp ≠ []) ∧ ip.all isDigitChar ∧ fp.all isDigitChar then
      some ((digitsVal ip : ℚ) + (digitsVal fp : ℚ) / 10 ^ fp.length)
    else none

/-- Python `float()` restricted to sign + decimal digits with an optional
single decimal point (the grammar of feed and user coordinates).  `none`
models `ValueError`. -/
def parseFloat (s : List Char) : Option ℚ :=
  match s with
  | [] => none
  | c :: r =>
    if c = '-' then (parseFloatCore r).map (fun q => -q)
    else if c = '+' then parseFloatCore r
    else parseFloatCore (c :: r)

/-- Round to the nearest integer, ties to even (Python `round`). -/
def roundHalfEven (q : ℚ) : ℤ :=
  let f := ⌊q⌋
  let frac := q - f
  if frac < 1/2 then f
  else if 1/2 < frac then f + 1
  else if f % 2 = 0 then f else f + 1

/-- Python `round(x, ndigits)` on the exact-rational model of floats. -/
def pyRound (q : ℚ) (ndigits : Nat) : ℚ :=
  (roundHalfEven (q * 10 ^ ndigits) : ℚ) / 10 ^ ndigits

/-- A shapely `Point(x, y)`.  User-facing replies print a stored point as
`y, x`, which for `parse_area`'s output is the user's two numbers in the
order they were entered.  Which axis carries latitude is fixed by the feed
polygons, not by this structure: their `"lat,lon"` tokens put latitude in
the first (x) coordinate and longitude in the second (y) — see `latOf`. -/
structure Point where
  x : ℚ
  y : ℚ
deriving DecidableEq, Repr

/-- `helper.parse_area(area, ndigits)`: split the input at the first run of
commas/spaces, parse both halves as floats rounded to `ndigits`, and build
`Point(lat, lon)`.  The source binds the first number to a variable named
`lon` and the second to `lat`, then constructs `Point(lat, lon)` — so the
first number ends up in the `y` coordinate and the second in the `x`
coordinate; relative to the feed polygons' axis layout (latitude in x,
longitude in y — see `latOf`) that stores the first number on the longitude
axis and the second on the latitude axis.  `none` models the
`TypeError`/`ValueError` caught by the callers. -/
def parse_area (area : List Char) (ndigits : Nat) : Option Point := do
  let (s1, s2) ← splitSep1 area
  let lon ← (parseFloat s1).map (pyRound · ndigits)
  let lat ← (parseFloat s2).map (pyRound · ndigits)
  pure { x := lat, y := lon }

/-- Python `str.split(' ')` with an explicit separator: runs of spaces are
not collapsed, so consecutive spaces produce empty tokens. -/
def splitSpace : List Char → List (List Char)
  | [] => [[]]
  | c :: cs =>
    if c = ' ' then [] :: splitSpace cs
    else
      match splitSpace cs with
      | [] => [[c]]
      | h :: t => (c :: h) :: t

/-- Join tokens with single spaces (left inverse of `splitSpace` on
space-free tokens). -/
def joinSpace : List (List Char) → List Char
  | [] => []
  | [t] => t
  | t :: ts => t ++ ' ' :: joinSpace ts

/-- `point.split(',', 1)`: split at the first comma; `none` models the
single-element result, which yields a 1-tuple coordinate that makes the
shapely `Polygon` constructor raise. -/
def splitComma1 : List Char → Option (List Char × List Char)
  | [] => none
  | c :: cs =>
    if c = ',' then some ([], cs)
    else (splitComma1 cs).map (fun p => (c :: p.1, p.2))

/-- `list(map(float, point.split(',', 1)))` as a coordinate pair;
`none` models `ValueError`. -/
def parsePoint (s : List Char) : Option (ℚ × ℚ) := do
  let (a, b) ← splitComma1 s
  let x ← parseFloat a
  let y ← parseFloat b
  pure (x, y)

/-- The latitude coordinate of a stored point in the match query's planar
frame.  The frame is fixed by the feed polygons: each polygon token is a
`"lat,lon"` pair (the feed format), and `parsePoint` places its first
number — the latitude — in the first coordinate, so every parsed ring
carries latitudes on the x axis and longitudes on the y axis.  The
spatialite `ST_Distance` of the match query compares the stored point with
the ring vertices componentwise in this same frame, so the latitude slot of
a stored `Point` is its `x` and the longitude slot its `y`. -/
def latOf (p : Point) : ℚ := p.x

/-- The longitude coordinate of a stored point in the match query's planar
frame (see `latOf`). -/
def lonOf (p : Point) : ℚ := p.y

/-- The sentinel no-data coordinate pair dropped from rings. -/
def sentinel : List Char := "-1.0,-1.0".toList

/-- A ring (one shapely `Polygon` shell) as its vertex list. -/
abbrev Ring := List (ℚ × ℚ)

/-- A shapely `MultiPolygon` as its list of rings. -/
abbrev MultiPoly := List Ring

/-- The shapely `Polygon` constructor: an empty coordinate sequence gives an
empty polygon, one or two coordinates raise, three or more succeed. -/
def shapelyPolygon (pts : Ring) : Option Ring :=
  if pts.length = 0 then some pts
  else if pts.length < 3 then none
  else some pts

/-- One polygon string of an area: split on spaces, drop tokens equal to the
sentinel `-1.0,-1.0`, parse each remaining token as a coordinate pair, then
build the shapely `Polygon`.  `none` models the `ValueError` caught in
`send_updates_for_event`. -/
def parsePolygon (p : List Char) : Option Ring := do
  let pts ← ((splitSpace p).filter (fun t => t ≠ sentinel)).mapM parsePoint
  shapelyPolygon pts

/-- The `MultiPolygon(... for polygon in area['polygon'] if ' ' in polygon)`
expression: polygon strings without a space are skipped entirely; any
remaining string that fails to parse fails the whole area. -/
def areaMultiPolygon (polys : List (List Char)) : Option MultiPoly :=
  (polys.filter (fun p => p.contains ' ')).mapM parsePolygon

/-- One `area` block of an event's `info[0]`: a human-readable description
and the raw polygon strings. -/
structure AreaData where
  areaDesc : List Char
  polygon : List (List Char)
deriving DecidableEq, Repr

/-- The part of a feed event the pipeline consumes: its `identifier` and the
`area` blocks of `info[0]`. -/
structure EventData where
  identifier : String
  areas : List AreaData
deriving DecidableEq, Repr

/-- Observable effects of one pipeline pass: the logged warning for an
invalid polygon, one outbound XMPP notification per matched JID (with the
flag deciding whether area descriptions are included), and the insertion of
an event id into the `event` table. -/
inductive Action where
  | warnInvalidPolygon (id : String)
  | notify (jid : String) (id : String) (withAreas : Bool)
  | markSeen (id : String)
deriving DecidableEq, Repr

/-- The first loop of `send_updates_for_event`: parse every area's polygons
in order; the first failure aborts with `none` (the function `return`s after
logging). -/
def parseAreas : List AreaData → Option (List MultiPoly)
  | [] => some []
  | a :: rest =>
    match areaMultiPolygon a.polygon with
    | none => none
    | some mp => (parseAreas rest).map (fun l => mp :: l)

/-- Append a JID to the match dictionary keyed by insertion order
(`matches.setdefault(jid, []).append(area)`). -/
def insertMatch (ms : List String) (j : String) : List String :=
  if j ∈ ms then ms else ms ++ [j]

/-- The second loop of `send_updates_for_event`: for each area's
multipolygon, the database returns the JIDs of registrations whose point is
within the distance threshold (the spatialite `ST_Distance` comparison is
the abstract predicate `wt`); matched JIDs are collected in first-match
order. -/
def collectMatches (wt : Point → MultiPoly → Bool)
    (regs : List (String × Point)) (mps : List MultiPoly) : List String :=
  mps.foldl
    (fun ms mp =>
      (((regs.filter (fun r => wt r.2 mp)).map (fun r => r.1)).foldl insertMatch ms))
    []

/-- `NinaXMPP.send_updates_for_event`: parse all areas (aborting the whole
event with only a logged warning if any area fails), then notify each
matched JID once; area descriptions are included only when the JID has more
than one registration. -/
def send_updates_for_event (wt : Point → MultiPoly → Bool)
    (regs : List (String × Point)) (ev : EventData) : List Action :=
  match parseAreas ev.areas with
  | none => [Action.warnInvalidPolygon ev.identifier]
  | some mps =>
    (collectMatches wt regs mps).map
      (fun jid =>
        Action.notify jid ev.identifier
          (1 < (regs.filter (fun r => r.1 = jid)).length))

/-- `NinaXMPP.send_updates_for_feed`: for each event of the fetched body in
order, skip it if its identifier is already recorded, otherwise process it
and then record the identifier (`db.add(Event(...))`, visible to later
queries in the same pass).  Returns the final seen set and the action
trace. -/
def send_updates_for_feed (wt : Point → MultiPoly → Bool)
    (regs : List (String × Point)) :
    List String → List EventData → List String × List Action
  | seen, [] => (seen, [])
  | seen, ev :: rest =>
    if ev.identifier ∈ seen then send_updates_for_feed wt regs seen rest
    else
      let acts := send_updates_for_event wt regs ev ++ [Action.markSeen ev.identifier]
      let r := send_updates_for_feed wt regs (seen ++ [ev.identifier]) rest
      (r.1, acts ++ r.2)

/-- One row of the `feed` table: url (primary key) and the two HTTP
validators. -/
structure FeedRecord where
  url : String
  last_modified : Option String
  etag : Option String
deriving DecidableEq, Repr

/-- The persistent database: `registration`, `feed` and `event` tables. -/
structure DbState where
  registrations : List (String × Point)
  feeds : List FeedRecord
  seen : List String
deriving DecidableEq, Repr

/-- `db.query(Feed).filter_by(url=url).one()` (as an option). -/
def getFeed (l : List FeedRecord) (url : String) : Option FeedRecord :=
  l.find? (fun f => f.url = url)

/-- Store a feed record: replace the row with the same url, or insert it. -/
def setFeed : List FeedRecord → FeedRecord → List FeedRecord
  | [], fr => [fr]
  | f :: fs, fr => if f.url = fr.url then fr :: fs else f :: setFeed fs fr

/-- Outcome of `http_client.get(url, headers)`: a 200 response carrying the
validator headers and the JSON body, any other status code, or a raised
transport exception. -/
inductive FetchResult where
  | ok (lastModified etag : Option String) (body : List EventData)
  | status (code : Nat)
  | netError
deriving DecidableEq

/-- `NinaXMPP.update_feeds`: iterate the configured urls; a 200 response
stores the response validators and runs `send_updates_for_feed`; any other
status leaves the database untouched for that feed; a transport exception
propagates out of the loop before `db.commit()`, so no change of the cycle
is committed (`none`). -/
def update_feeds (fetch : String → FetchResult) (wt : Point → MultiPoly → Bool) :
    List String → DbState → Option DbState
  | [], db => some db
  | url :: rest, db =>
    match fetch url with
    | .netError => none
    | .status _ => update_feeds fetch wt rest db
    | .ok lm et body =>
      let seen := (send_updates_for_feed wt db.registrations db.seen body).1
      update_feeds fetch wt rest
        { db with
          feeds := setFeed db.feeds { url := url, last_modified := lm, etag := et }
          seen := seen }

/-- The reply strings of the command handlers, one constructor per format
string of the source. -/
inductive Reply where
  | notUnderstood
  | noCoordinates
  | invalidCoordinates (area : List Char)
  | registered (p : Point) (welcome : Bool)
  | alreadyRegistered (p : Point)
  | noneUnregistered
  | unregisteredAll (n : Nat)
  | notRegistered (p : Point)
  | unregistered (p : Point)
  | listing (pts : List (ℚ × ℚ))
  | feedsListing (entries : List (String × Option (Option String)))
  | helpText
deriving DecidableEq, Repr

/-- `NinaXMPP.register`: parse the coordinates, insert the registration; the
unique index on `(jid, point)` raises `IntegrityError` on a duplicate, which
is rolled back and mapped to the already-registered reply.  The welcome
message is appended when the JID's registration count is 1 after the
insert. -/
def register (ndigits : Nat) (db : DbState) (jid : String) (area : List Char) :
    DbState × Reply :=
  if area = [] then (db, .noCoordinates)
  else
    match parse_area area ndigits with
    | none => (db, .invalidCoordinates area)
    | some point =>
      if (jid, point) ∈ db.registrations then (db, .alreadyRegistered point)
      else
        let regs := db.registrations ++ [(jid, point)]
        ({ db with registrations := regs },
         .registered point ((regs.filter (fun r => r.1 = jid)).length = 1))

/-- `NinaXMPP.unregister`: `all` deletes every registration of the JID;
otherwise the parsed point's registration is deleted if present. -/
def unregister (ndigits : Nat) (db : DbState) (jid : String) (area : List Char) :
    DbState × Reply :=
  if area = [] then (db, .noCoordinates)
  else if area = "all".toList then
    let n := (db.registrations.filter (fun r => r.1 = jid)).length
    if n = 0 then (db, .noneUnregistered)
    else
      ({ db with registrations := db.registrations.filter (fun r => ¬ r.1 = jid) },
       .unregisteredAll n)
  else
    match parse_area area ndigits with
    | none => (db, .invalidCoordinates area)
    | some point =>
      if (jid, point) ∈ db.registrations then
        ({ db with registrations := db.registrations.filter (fun r => r ≠ (jid, point)) },
         .unregistered point)
      else (db, .notRegistered point)

/-- `NinaXMPP.list`: the JID's registered points in insertion order, each
rendered as `y, x` — the user's two numbers in the order they were
registered; an empty result renders the fixed no-active-registrations
text. -/
def listRegistrations (db : DbState) (jid : String) : List (ℚ × ℚ) :=
  (db.registrations.filter (fun r => r.1 = jid)).map (fun r => (r.2.y, r.2.x))

/-- `NinaXMPP.feeds`: per configured url, its stored `last_modified`
(`none` renders as `never`). -/
def feedsCommand (cfgFeeds : List String) (db : DbState) :
    List (String × Option (Option String)) :=
  cfgFeeds.map (fun url => (url, (getFeed db.feeds url).map (fun f => f.last_modified)))

/-- ASCII casefold (`str.casefold` on the command vocabulary). -/
def toLowerStr (l : List Char) : List Char := l.map Char.toLower

/-- `cbody.startswith(pat)`. -/
def startsWith : List Char → List Char → Bool
  | [], _ => true
  | _ :: _, [] => false
  | c :: cs, d :: ds => c = d && startsWith cs ds

/-- `NinaXMPP.commands`, in source order. -/
def commands : List (List Char) :=
  ["register", "unregister", "feeds", "list", "help"].map String.toList

/-- `getattr(self, cmd)(jid, arg)`: run one command handler. -/
def runCommand (ndigits : Nat) (cfgFeeds : List String) (cmd : List Char)
    (db : DbState) (jid : String) (arg : List Char) : DbState × Reply :=
  if cmd = "register".toList then register ndigits db jid arg
  else if cmd = "unregister".toList then unregister ndigits db jid arg
  else if cmd = "feeds".toList then (db, .feedsListing (feedsCommand cfgFeeds db))
  else if cmd = "list".toList then (db, .listing (listRegistrations db jid))
  else (db, .helpText)

/-- The command loop of `message_received`: the first command whose
casefolded name equals the casefolded body, or prefixes it followed by a
space, is run on the rest of the original body; no match falls through to
the not-understood reply. -/
def dispatch (ndigits : Nat) (cfgFeeds : List String) (db : DbState)
    (jid : String) (body : List Char) : List (List Char) → DbState × Reply
  | [] => (db, .notUnderstood)
  | cmd :: rest =>
    let cbody := toLowerStr body
    let ccmd := toLowerStr cmd
    if cbody = ccmd ∨ startsWith (ccmd ++ [' ']) cbody then
      runCommand ndigits cfgFeeds cmd db jid (body.drop (cmd.length + 1))
    else dispatch ndigits cfgFeeds db jid body rest

/-- `NinaXMPP.message_received`: a message with no body (`if not msg.body`)
is ignored with no reply and no state change; otherwise the body is
dispatched and exactly one reply is enqueued. -/
def message_received (ndigits : Nat) (cfgFeeds : List String) (db : DbState)
    (jid : String) (body : Option (List Char)) : DbState × Option Reply :=
  match body with
  | none => (db, none)
  | some b =>
    let r := dispatch ndigits cfgFeeds db jid b commands
    (r.1, some r.2)

/-- The matching criterion of the registration query in
`send_updates_for_event`: `ST_Distance(point, multipolygon) <= SQRT2 *
10 ** (-coordinate_digits)` with `SQRT2 = math.sqrt(2)`, stated over the
real distance value computed by spatialite. -/
def registration_matches (dist : ℝ) (ndigits : Nat) : Prop :=
  dist ≤ Real.sqrt 2 * (10 : ℝ) ^ (-(ndigits : ℤ))

/-! ### Concrete fixtures used to instantiate the general statements -/

/-- An area whose polygon string has an unparseable token. -/
def badPolyArea : AreaData :=
  { areaDesc := "A".toList, polygon := ["1,1 bad,2 2,2".toList] }

/-- An area with a valid three-vertex polygon. -/
def goodPolyArea : AreaData :=
  { areaDesc := "B".toList, polygon := ["1,1 2,1 2,2".toList] }

/-- An event whose first area fails parsing and whose second is valid. -/
def mixedAreasEvent : EventData := { identifier := "ev1", areas := [badPolyArea, goodPolyArea] }

/-- The same event with only the valid area. -/
def goodAreaEvent : EventData := { identifier := "ev1", areas := [goodPolyArea] }

/-- An event with only the failing area. -/
def badAreaEvent : EventData := { identifier := "ev1", areas := [badPolyArea] }

/-- A single registration. -/
def oneRegistration : List (String × Point) := [("user@example.org", { x := 1, y := 1 })]

/-- A distance oracle under which every registration matches. -/
def alwaysMatch : Point → MultiPoly → Bool := fun _ _ => true

/-- A fetch oracle: one url answers 200 with an empty body, all others 404. -/
def status404Fetch : String → FetchResult :=
  fun u =>
    if u = "https://alerts.example/ok" then FetchResult.ok none none []
    else FetchResult.status 404

/-- A fetch oracle: one url answers 200 with an empty body, all others raise
a transport exception. -/
def netErrorFetch : String → FetchResult :=
  fun u =>
    if u = "https://alerts.example/two" then FetchResult.ok none none []
    else FetchResult.netError

/-! ### Parsing lemmas -/

theorem splitDot1_eq (t : List Char) :
    t = (splitDot1 t).1 ++
      (match (splitDot1 t).2 with | none => [] | some b => '.' :: b) := by
  induction t with
  | nil => simp [splitDot1]
  | cons c cs ih =>
    by_cases h : c = '.'
    · subst h; simp [splitDot1]
    · simp only [splitDot1, if_neg h]
      exact congrArg (List.cons c) ih

theorem digit_not_sep (c : Char) (h : isDigitChar c = true) : isSepChar c = false := by
  by_cases h1 : c = ','
  · exact absurd (h1 ▸ h) (by decide)
  · by_cases h2 : c = ' '
    · exact absurd (h2 ▸ h) (by decide)
    · simp [isSepChar, h1, h2]

theorem parseFloatCore_chars (t : List Char) (a : ℚ) (h : parseFloatCore t = some a) :
    ∀ c ∈ t, isDigitChar c = true ∨ c = '.' := by
  have ht := splitDot1_eq t
  unfold parseFloatCore at h
  rcases hsd : splitDot1 t with ⟨ip, r⟩
  rw [hsd] at h ht
  cases r with
  | none =>
    simp only at h ht
    split_ifs at h with hc
    intro c hct
    rw [ht] at hct
    simp only [List.append_nil] at hct
    exact Or.inl (List.all_eq_true.mp hc.2 c hct)
  | some fp =>
    simp only at h ht
    split_ifs at h with hc
    intro c hct
    rw [ht] at hct
    rcases List.mem_append.mp hct with hin | hin
    · exact Or.inl (List.all_eq_true.mp hc.2.1 c hin)
    · rcases List.mem_cons.mp hin with hd | hin2
      · exact Or.inr hd
      · exact Or.inl (List.all_eq_true.mp hc.2.2 c hin2)

theorem notSep_of_float_char (c : Char) (h : isDigitChar c = true ∨ c = '.') :
    isSepChar c = false := by
  rcases h with h | h
  · exact digit_not_sep c h
  · subst h; decide

theorem parseFloat_chars (s : List Char) (a : ℚ) (h : parseFloat s = some a) :
    ∀ c ∈ s, isSepChar c = false := by
  cases s with
  | nil => intro c hc; exact absurd hc (List.not_mem_nil c)
  | cons c r =>
    simp only [parseFloat] at h
    by_cases h1 : c = '-'
    · rw [if_pos h1] at h
      rcases Option.map_eq_some'.mp h with ⟨q, hq, _⟩
      intro d hd
      rcases List.mem_cons.mp hd with hd | hd
      · subst hd; subst h1; decide
      · exact notSep_of_float_char d (parseFloatCore_chars r q hq d hd)
    · rw [if_neg h1] at h
      by_cases h2 : c = '+'
      · rw [if_pos h2] at h
        intro d hd
        rcases List.mem_cons.mp hd with hd | hd
        · subst hd; subst h2; decide
        · exact notSep_of_float_char d (parseFloatCore_chars r a h d hd)
      · rw [if_neg h2] at h
        intro d hd
        exact notSep_of_float_char d (parseFloatCore_chars (c :: r) a h d hd)

theorem dropSeps_sep_append (sep s2 : List Char)
    (hsep : ∀ c ∈ sep, isSepChar c = true)
    (h2 : ∀ c ∈ s2, isSepChar c = false) :
    dropSeps (sep ++ s2) = s2 := by
  induction sep with
  | nil =>
    cases s2 with
    | nil => rfl
    | cons d ds =>
      have hd := h2 d (List.mem_cons_self d ds)
      simp [dropSeps, hd]
  | cons c cs ih =>
    have hc := hsep c (List.mem_cons_self c cs)
    simp only [List.cons_append, dropSeps, hc, if_true]
    exact ih (fun d hd => hsep d (List.mem_cons_of_mem c hd))

theorem splitSep1_append (s1 sep s2 : List Char)
    (h1 : ∀ c ∈ s1, isSepChar c = false)
    (hsep0 : sep ≠ []) (hsep : ∀ c ∈ sep, isSepChar c = true)
    (h2 : ∀ c ∈ s2, isSepChar c = false) :
    splitSep1 (s1 ++ sep ++ s2) = some (s1, s2) := by
  induction s1 with
  | nil =>
    cases sep with
    | nil => exact absurd rfl hsep0
    | cons c cs =>
      have hc := hsep c (List.mem_cons_self c cs)
      simp only [List.nil_append, List.cons_append, splitSep1, hc, if_true,
        Option.some.injEq, Prod.mk.injEq, true_and]
      exact dropSeps_sep_append cs s2
        (fun d hd => hsep d (List.mem_cons_of_mem c hd)) h2
  | cons c cs ih =>
    have hc := h1 c (List.mem_cons_self c cs)
    simp only [List.cons_append, splitSep1, hc, Bool.false_eq_true, if_false,
      List.append_eq]
    rw [ih (fun d hd => h1 d (List.mem_cons_of_mem c hd))]
    rfl

theorem parse_area_append (s1 sep s2 : List Char) (ndigits : Nat) (a b : ℚ)
    (h1 : parseFloat s1 = some a) (h2 : parseFloat s2 = some b)
    (hsep0 : sep ≠ []) (hsep : ∀ c ∈ sep, isSepChar c = true) :
    parse_area (s1 ++ sep ++ s2) ndigits =
      some { x := pyRound b ndigits, y := pyRound a ndigits } := by
  have hc1 := parseFloat_chars s1 a h1
  have hc2 := parseFloat_chars s2 b h2
  unfold parse_area
  rw [splitSep1_append s1 sep s2 hc1 hsep0 hsep hc2]
  simp [h1, h2]

/-! ### Claim C1 -/

theorem pyRound_int (n : ℤ) (d : Nat) : pyRound (n : ℚ) d = (n : ℚ) := by
  have h1 : ((n : ℚ)) * 10 ^ d = ((n * 10 ^ d : ℤ) : ℚ) := by push_cast; ring
  simp only [pyRound, roundHalfEven]
  rw [h1, Int.floor_intCast, sub_self, if_pos (by norm_num : (0:ℚ) < 1/2)]
  push_cast
  field_simp

/-- C1 counterexample: at the concrete argument `52,13`, the stored point
carries `round(13)` — the second number — on the latitude axis (`latOf`,
the coordinate that the feed polygons' latitudes occupy, as `parsePoint` on
the same `"lat,lon"` pair format shows), and `round(13) ≠ round(52)`: the
first number is not interpreted as the latitude. -/
theorem c1_counterexample :
    parsePoint "52,13".toList = some (52, 13) ∧
    parse_area "52,13".toList 2 = some { x := pyRound 13 2, y := pyRound 52 2 } ∧
    latOf { x := pyRound 13 2, y := pyRound 52 2 } = pyRound 13 2 ∧
    pyRound 13 2 ≠ pyRound 52 2 := by
  have h13 : pyRound (13 : ℚ) 2 = 13 := by simpa using pyRound_int 13 2
  have h52 : pyRound (52 : ℚ) 2 = 52 := by simpa using pyRound_int 52 2
  refine ⟨by decide, ?_, rfl, ?_⟩
  · have h1 : parseFloat "52".toList = some 52 := by decide
    have h2 : parseFloat "13".toList = some 13 := by decide
    have hp := parse_area_append "52".toList ",".toList "13".toList 2 52 13 h1 h2
      (by decide) (by decide)
    have hs : "52".toList ++ ",".toList ++ "13".toList = "52,13".toList := by decide
    rw [hs] at hp
    exact hp
  · rw [h13, h52]
    norm_num

/-- C1 (amended): a coordinate argument made of two decimal numbers
separated by a nonempty run of commas/spaces parses with both numbers
rounded to `ndigits` before the point is stored or compared, but the first
number lands on the longitude axis (`lonOf`, i.e. `Point.y`) and the second
on the latitude axis (`latOf`, i.e. `Point.x`, the coordinate the feed
polygons' latitudes occupy in the match query) — the reverse of the
documented order; replies print the stored point as `y, x`, the numbers in
the order entered. -/
theorem c1_first_number_is_longitude (s1 sep s2 : List Char) (ndigits : Nat) (a b : ℚ)
    (h1 : parseFloat s1 = some a) (h2 : parseFloat s2 = some b)
    (hsep0 : sep ≠ []) (hsep : ∀ c ∈ sep, isSepChar c = true) :
    parse_area (s1 ++ sep ++ s2) ndigits =
      some { x := pyRound b ndigits, y := pyRound a ndigits } ∧
    (parse_area (s1 ++ sep ++ s2) ndigits).map latOf = some (pyRound b ndigits) ∧
    (parse_area (s1 ++ sep ++ s2) ndigits).map lonOf = some (pyRound a ndigits) := by
  have hp := parse_area_append s1 sep s2 ndigits a b h1 h2 hsep0 hsep
  rw [hp]
  exact ⟨rfl, rfl, rfl⟩

theorem c1_witness :
    parseFloat "52.52".toList = some (1313/25) ∧
    parseFloat "13.405".toList = some (2681/200) ∧
    ",".toList ≠ ([] : List Char) ∧
    (∀ c ∈ ",".toList, isSepChar c = true) ∧
    (parse_area ("52.52".toList ++ ",".toList ++ "13.405".toList) 2 =
        some { x := pyRound (2681/200) 2, y := pyRound (1313/25) 2 } ∧
      (parse_area ("52.52".toList ++ ",".toList ++ "13.405".toList) 2).map latOf
        = some (pyRound (2681/200) 2) ∧
      (parse_area ("52.52".toList ++ ",".toList ++ "13.405".toList) 2).map lonOf
        = some (pyRound (1313/25) 2)) := by
  have h1 : parseFloat "52.52".toList = some (1313/25) := by
    simp [parseFloat, parseFloatCore, splitDot1, digitsVal, isDigitChar]
    norm_num
  have h2 : parseFloat "13.405".toList = some (2681/200) := by
    simp [parseFloat, parseFloatCore, splitDot1, digitsVal, isDigitChar]
    norm_num
  exact ⟨h1, h2, by decide, by decide,
    c1_first_number_is_longitude "52.52".toList ",".toList "13.405".toList 2
      (1313/25) (2681/200) h1 h2 (by decide) (by decide)⟩

/-! ### Claim C8 -/

/-- C8: for every valid coordinate string (two parseable decimal numbers
`a`, `b` joined by a separator run), `register` followed by `list` on a
fresh store returns exactly the input point rounded to `ndigits`, the two
numbers printed back in the order they were entered (`list` renders
`y, x`). -/
theorem c8_register_list_roundtrip (ndigits : Nat) (jid : String)
    (s1 sep s2 : List Char) (a b : ℚ)
    (h1 : parseFloat s1 = some a) (h2 : parseFloat s2 = some b)
    (hsep0 : sep ≠ []) (hsep : ∀ c ∈ sep, isSepChar c = true) :
    listRegistrations
      (register ndigits { registrations := [], feeds := [], seen := [] } jid
        (s1 ++ sep ++ s2)).1 jid
      = [(pyRound a ndigits, pyRound b ndigits)] := by
  have hp := parse_area_append s1 sep s2 ndigits a b h1 h2 hsep0 hsep
  have hne : s1 ++ sep ++ s2 ≠ [] := by
    intro h
    rcases List.append_eq_nil.mp h with ⟨h', _⟩
    rcases List.append_eq_nil.mp h' with ⟨_, hsepnil⟩
    exact hsep0 hsepnil
  simp only [register, if_neg hne, hp]
  simp [listRegistrations]

theorem c8_witness :
    parseFloat "52.52".toList = some (1313/25) ∧
    parseFloat "13.405".toList = some (2681/200) ∧
    ", ".toList ≠ ([] : List Char) ∧
    (∀ c ∈ ", ".toList, isSepChar c = true) ∧
    listRegistrations
      (register 2 { registrations := [], feeds := [], seen := [] } "user@example.org"
        ("52.52".toList ++ ", ".toList ++ "13.405".toList)).1 "user@example.org"
      = [(pyRound (1313/25) 2, pyRound (2681/200) 2)] := by
  have h1 : parseFloat "52.52".toList = some (1313/25) := by
    simp [parseFloat, parseFloatCore, splitDot1, digitsVal, isDigitChar]
    norm_num
  have h2 : parseFloat "13.405".toList = some (2681/200) := by
    simp [parseFloat, parseFloatCore, splitDot1, digitsVal, isDigitChar]
    norm_num
  exact ⟨h1, h2, by decide, by decide,
    c8_register_list_roundtrip 2 "user@example.org" "52.52".toList ", ".toList
      "13.405".toList (1313/25) (2681/200) h1 h2 (by decide) (by decide)⟩

/-! ### Claim C7 -/

theorem filter_point_listRegistrations (regs : List (String × Point)) (jid : String) (p : Point) :
    (((regs.filter (fun r => r.1 = jid)).map (fun r => (r.2.y, r.2.x))).filter
        (fun e => e = (p.y, p.x))).length
      = (regs.filter (fun r => r = (jid, p))).length := by
  induction regs with
  | nil => rfl
  | cons r rest ih =>
    obtain ⟨j, pt⟩ := r
    by_cases hj : j = jid
    · subst hj
      rw [List.filter_cons_of_pos (by simp), List.map_cons]
      by_cases hpt : pt = p
      · subst hpt
        rw [List.filter_cons_of_pos (by simp), List.filter_cons_of_pos (by simp),
          List.length_cons, List.length_cons, ih]
      · have h1 : ¬ ((pt.y, pt.x) = (p.y, p.x)) := by
          intro h
          apply hpt
          obtain ⟨ptx, pty⟩ := pt
          obtain ⟨px, py⟩ := p
          simp only [Prod.mk.injEq] at h
          simp [Point.mk.injEq, h.1, h.2]
        rw [List.filter_cons_of_neg (by simpa using h1),
          List.filter_cons_of_neg (by simp [hpt]), ih]
    · rw [List.filter_cons_of_neg (by simp [hj]),
        List.filter_cons_of_neg (by simp [Prod.ext_iff, hj]), ih]

theorem nodup_filter_singleton (l : List (String × Point)) (a : String × Point)
    (hnd : l.Nodup) (hmem : a ∈ l) :
    (l.filter (fun x => x = a)).length = 1 := by
  induction l with
  | nil => exact absurd hmem (List.not_mem_nil a)
  | cons b rest ih =>
    rw [List.nodup_cons] at hnd
    rcases List.mem_cons.mp hmem with h | h
    · subst h
      rw [List.filter_cons_of_pos (by simp)]
      have hrest : rest.filter (fun x => x = a) = [] := by
        rw [List.filter_eq_nil_iff]
        intro x hx
        simp only [decide_eq_true_eq]
        intro hxa
        exact hnd.1 (hxa ▸ hx)
      rw [hrest]
      rfl
    · have hba : ¬ (b = a) := fun hba => hnd.1 (hba ▸ h)
      rw [List.filter_cons_of_neg (by simp [hba])]
      exact ih hnd.2 h

/-- C7: registering the same rounded point a second time for the same
subscriber returns the already-registered reply (the rolled-back
`IntegrityError`), leaves the store unchanged, a subsequent `list` shows
exactly one entry for that point, and the per-`(jid, point)` uniqueness
invariant of the store is preserved. -/
theorem c7_duplicate_registration (ndigits : Nat) (db : DbState) (jid : String)
    (area : List Char) (point : Point)
    (hp : parse_area area ndigits = some point)
    (hnd : db.registrations.Nodup) :
    (register ndigits (register ndigits db jid area).1 jid area).2
        = Reply.alreadyRegistered point ∧
    (register ndigits (register ndigits db jid area).1 jid area).1
        = (register ndigits db jid area).1 ∧
    ((listRegistrations (register ndigits (register ndigits db jid area).1 jid area).1
        jid).filter (fun e => e = (point.y, point.x))).length = 1 ∧
    (register ndigits db jid area).1.registrations.Nodup := by
  have hne : area ≠ [] := by
    intro h; subst h
    simp [parse_area, splitSep1] at hp
  by_cases hmem : (jid, point) ∈ db.registrations
  · have hr1 : register ndigits db jid area = (db, Reply.alreadyRegistered point) := by
      simp [register, if_neg hne, hp, hmem]
    rw [hr1]
    refine ⟨by simp [register, if_neg hne, hp, hmem], by simp [register, if_neg hne, hp, hmem],
      ?_, hnd⟩
    rw [hr1]
    simp only [listRegistrations]
    rw [filter_point_listRegistrations]
    exact nodup_filter_singleton db.registrations (jid, point) hnd hmem
  · have hr1 : register ndigits db jid area
        = ({ db with registrations := db.registrations ++ [(jid, point)] },
           Reply.registered point
             (((db.registrations ++ [(jid, point)]).filter (fun r => r.1 = jid)).length = 1)) := by
      simp [register, if_neg hne, hp, hmem]
    have hmem2 : (jid, point) ∈ db.registrations ++ [(jid, point)] :=
      List.mem_append_right _ (List.mem_singleton.mpr rfl)
    rw [hr1]
    have hr2 : register ndigits { db with registrations := db.registrations ++ [(jid, point)] }
        jid area
        = ({ db with registrations := db.registrations ++ [(jid, point)] },
           Reply.alreadyRegistered point) := by
      simp [register, if_neg hne, hp, hmem2]
    rw [hr2]
    refine ⟨rfl, rfl, ?_, ?_⟩
    · simp only [listRegistrations]
      rw [filter_point_listRegistrations, List.filter_append]
      have hz : db.registrations.filter (fun r => r = (jid, point)) = [] := by
        rw [List.filter_eq_nil_iff]
        intro x hx
        simp only [decide_eq_true_eq]
        intro hxa
        exact hmem (hxa ▸ hx)
      rw [hz]
      simp
    · simp [List.nodup_append, hnd, hmem]

theorem c7_witness :
    parse_area "52.5,13.4".toList 2
        = some { x := pyRound (67/5) 2, y := pyRound (105/2) 2 } ∧
    ([] : List (String × Point)).Nodup ∧
    ((register 2 (register 2 { registrations := [], feeds := [], seen := [] }
        "user@example.org" "52.5,13.4".toList).1 "user@example.org" "52.5,13.4".toList).2
        = Reply.alreadyRegistered { x := pyRound (67/5) 2, y := pyRound (105/2) 2 } ∧
      (register 2 (register 2 { registrations := [], feeds := [], seen := [] }
          "user@example.org" "52.5,13.4".toList).1 "user@example.org" "52.5,13.4".toList).1
        = (register 2 { registrations := [], feeds := [], seen := [] }
            "user@example.org" "52.5,13.4".toList).1 ∧
      ((listRegistrations (register 2 (register 2 { registrations := [], feeds := [], seen := [] }
          "user@example.org" "52.5,13.4".toList).1 "user@example.org" "52.5,13.4".toList).1
          "user@example.org").filter
          (fun e => e = (pyRound (105/2) 2, pyRound (67/5) 2))).length = 1 ∧
      (register 2 { registrations := [], feeds := [], seen := [] }
          "user@example.org" "52.5,13.4".toList).1.registrations.Nodup) := by
  have h1 : parseFloat "52.5".toList = some (105/2) := by
    simp [parseFloat, parseFloatCore, splitDot1, digitsVal, isDigitChar]
    norm_num
  have h2 : parseFloat "13.4".toList = some (67/5) := by
    simp [parseFloat, parseFloatCore, splitDot1, digitsVal, isDigitChar]
    norm_num
  have hp := parse_area_append "52.5".toList ",".toList "13.4".toList 2 (105/2) (67/5)
    h1 h2 (by decide) (by decide)
  have hs : "52.5".toList ++ ",".toList ++ "13.4".toList = "52.5,13.4".toList := by decide
  rw [hs] at hp
  exact ⟨hp, List.nodup_nil,
    c7_duplicate_registration 2 { registrations := [], feeds := [], seen := [] }
      "user@example.org" "52.5,13.4".toList
      { x := pyRound (67/5) 2, y := pyRound (105/2) 2 } hp List.nodup_nil⟩

/-! ### Claim C3 -/

/-- C3: a registered point matches an area exactly when its distance to the
parsed multipolygon is at most `sqrt(2) * 10^(-coordinate_digits)`; with
`coordinate_digits = 2` a point at distance exactly `sqrt(2) * 0.01`
matches and any strictly farther point does not. -/
theorem c3_tolerance_matching :
    (∀ (dist : ℝ) (ndigits : Nat),
      registration_matches dist ndigits ↔
        dist ≤ Real.sqrt 2 * (10 : ℝ) ^ (-(ndigits : ℤ))) ∧
    registration_matches (Real.sqrt 2 * (1/100)) 2 ∧
    (∀ dist : ℝ, Real.sqrt 2 * (1/100) < dist → ¬ registration_matches dist 2) := by
  refine ⟨fun dist n => Iff.rfl, ?_, ?_⟩
  · unfold registration_matches
    have h : Real.sqrt 2 * (1/100) = Real.sqrt 2 * (10 : ℝ) ^ (-((2:ℕ) : ℤ)) := by
      norm_num
    exact le_of_eq h
  · intro dist h
    unfold registration_matches
    rw [not_le]
    have h2 : Real.sqrt 2 * (10 : ℝ) ^ (-((2:ℕ) : ℤ)) = Real.sqrt 2 * (1/100) := by
      norm_num
    rw [h2]
    exact h

theorem c3_witness : ¬ registration_matches 1 2 := by
  have hlt : Real.sqrt 2 * (1/100) < 1 := by
    have h2 : Real.sqrt 2 < 2 := (Real.sqrt_lt' (by norm_num)).mpr (by norm_num)
    nlinarith [Real.sqrt_nonneg 2]
  exact c3_tolerance_matching.2.2 1 hlt

/-! ### Claim C10 -/

theorem dispatch_no_match (ndigits : Nat) (cfgFeeds : List String) (db : DbState)
    (jid : String) (body : List Char) (cmds : List (List Char))
    (h : ∀ cmd ∈ cmds, ¬ (toLowerStr body = toLowerStr cmd ∨
          startsWith (toLowerStr cmd ++ [' ']) (toLowerStr body) = true)) :
    dispatch ndigits cfgFeeds db jid body cmds = (db, Reply.notUnderstood) := by
  induction cmds with
  | nil => rfl
  | cons cmd rest ih =>
    have hc := h cmd (List.mem_cons_self _ _)
    simp only [dispatch]
    rw [if_neg hc]
    exact ih (fun c hcm => h c (List.mem_cons_of_mem _ hcm))

/-- C10: a message without a body is ignored: no reply is enqueued and no
state changes; a non-empty body matching no command (neither exactly nor as
a prefix followed by a space, case-insensitively) gets exactly the fixed
not-understood reply, again with no state change. -/
theorem c10_empty_body_ignored :
    (∀ (ndigits : Nat) (cfgFeeds : List String) (db : DbState) (jid : String),
      message_received ndigits cfgFeeds db jid none = (db, none)) ∧
    (∀ (ndigits : Nat) (cfgFeeds : List String) (db : DbState) (jid : String)
        (b : List Char), b ≠ [] →
      (∀ cmd ∈ commands, ¬ (toLowerStr b = toLowerStr cmd ∨
          startsWith (toLowerStr cmd ++ [' ']) (toLowerStr b) = true)) →
      message_received ndigits cfgFeeds db jid (some b)
        = (db, some Reply.notUnderstood)) := by
  refine ⟨fun _ _ _ _ => rfl, ?_⟩
  intro ndigits cfgFeeds db jid b hb h
  simp only [message_received]
  rw [dispatch_no_match ndigits cfgFeeds db jid b commands h]

theorem c10_witness :
    ("frobnicate".toList ≠ ([] : List Char)) ∧
    (∀ cmd ∈ commands, ¬ (toLowerStr "frobnicate".toList = toLowerStr cmd ∨
        startsWith (toLowerStr cmd ++ [' ']) (toLowerStr "frobnicate".toList) = true)) ∧
    message_received 2 [] { registrations := [], feeds := [], seen := [] }
        "user@example.org" (some "frobnicate".toList)
      = ({ registrations := [], feeds := [], seen := [] }, some Reply.notUnderstood) :=
  ⟨by decide, by decide,
    c10_empty_body_ignored.2 2 [] { registrations := [], feeds := [], seen := [] }
      "user@example.org" "frobnicate".toList (by decide) (by decide)⟩

/-! ### Claim C6 -/

theorem splitSpace_no_space (t : List Char) (h : ' ' ∉ t) : splitSpace t = [t] := by
  induction t with
  | nil => rfl
  | cons c cs ih =>
    have hc : ¬ c = ' ' := fun hh => h (hh ▸ List.mem_cons_self c cs)
    simp only [splitSpace, if_neg hc]
    rw [ih (fun hm => h (List.mem_cons_of_mem c hm))]

theorem splitSpace_append_space (t r : List Char) (h : ' ' ∉ t) :
    splitSpace (t ++ ' ' :: r) = t :: splitSpace r := by
  induction t with
  | nil => simp [splitSpace]
  | cons c cs ih =>
    have hc : ¬ c = ' ' := fun hh => h (hh ▸ List.mem_cons_self c cs)
    simp only [List.cons_append, splitSpace, if_neg hc, List.append_eq]
    rw [ih (fun hm => h (List.mem_cons_of_mem c hm))]

theorem splitSpace_joinSpace (ts : List (List Char)) (hne : ts ≠ [])
    (h : ∀ t ∈ ts, ' ' ∉ t) : splitSpace (joinSpace ts) = ts := by
  induction ts with
  | nil => exact absurd rfl hne
  | cons t rest ih =>
    cases rest with
    | nil =>
      simp only [joinSpace]
      exact splitSpace_no_space t (h t (List.mem_cons_self _ _))
    | cons t2 rest2 =>
      have hj : joinSpace (t :: t2 :: rest2) = t ++ ' ' :: joinSpace (t2 :: rest2) := rfl
      rw [hj, splitSpace_append_space t _ (h t (List.mem_cons_self _ _)),
        ih (by simp) (fun u hu => h u (List.mem_cons_of_mem _ hu))]

theorem contains_space_eq_false (p : List Char) (h : ' ' ∉ p) :
    p.contains ' ' = false := by
  induction p with
  | nil => rfl
  | cons c cs ih =>
    have hc : ¬ ' ' = c := fun hh => h (hh ▸ List.mem_cons_self c cs)
    simp only [List.contains_cons, Bool.or_eq_false_iff]
    constructor
    · simpa using hc
    · exact ih (fun hm => h (List.mem_cons_of_mem c hm))

/-- C6: a sentinel `-1.0,-1.0` token in a polygon string is dropped before
ring construction — the string parses exactly as if the sentinel vertex were
absent — and a polygon string with no whitespace is skipped entirely by the
area's multipolygon construction rather than raising. -/
theorem c6_sentinel_dropped_and_degenerate_skipped :
    (∀ ts1 ts2 : List (List Char),
      (∀ t ∈ ts1 ++ ts2, ' ' ∉ t) → ts1 ++ ts2 ≠ [] →
      parsePolygon (joinSpace (ts1 ++ sentinel :: ts2))
        = parsePolygon (joinSpace (ts1 ++ ts2))) ∧
    (∀ (p : List Char) (rest : List (List Char)), ' ' ∉ p →
      areaMultiPolygon (p :: rest) = areaMultiPolygon rest) := by
  constructor
  · intro ts1 ts2 hns hne
    have hsent : ' ' ∉ sentinel := by decide
    have h1 : ∀ t ∈ ts1 ++ sentinel :: ts2, ' ' ∉ t := by
      intro t ht
      rcases List.mem_append.mp ht with hm | hm
      · exact hns t (List.mem_append_left _ hm)
      · rcases List.mem_cons.mp hm with rfl | hm
        · exact hsent
        · exact hns t (List.mem_append_right _ hm)
    have hne1 : ts1 ++ sentinel :: ts2 ≠ [] := by simp
    unfold parsePolygon
    rw [splitSpace_joinSpace _ hne1 h1, splitSpace_joinSpace _ hne hns,
      List.filter_append, List.filter_append, List.filter_cons_of_neg (by simp)]
  · intro p rest hp
    unfold areaMultiPolygon
    rw [List.filter_cons_of_neg (by simpa using hp)]

theorem c6_witness :
    ((∀ t ∈ ["1.0,1.0".toList, "2.0,1.0".toList] ++ ["2.0,2.0".toList], ' ' ∉ t) ∧
      ["1.0,1.0".toList, "2.0,1.0".toList] ++ ["2.0,2.0".toList] ≠ [] ∧
      parsePolygon (joinSpace
          (["1.0,1.0".toList, "2.0,1.0".toList] ++ sentinel :: ["2.0,2.0".toList]))
        = parsePolygon (joinSpace
            (["1.0,1.0".toList, "2.0,1.0".toList] ++ ["2.0,2.0".toList]))) ∧
    (' ' ∉ "nospace".toList ∧
      areaMultiPolygon ("nospace".toList :: ["1.0,1.0 2.0,1.0 2.0,2.0".toList])
        = areaMultiPolygon ["1.0,1.0 2.0,1.0 2.0,2.0".toList]) :=
  ⟨⟨by decide, by decide,
      c6_sentinel_dropped_and_degenerate_skipped.1
        ["1.0,1.0".toList, "2.0,1.0".toList] ["2.0,2.0".toList] (by decide) (by decide)⟩,
    ⟨by decide,
      c6_sentinel_dropped_and_degenerate_skipped.2
        "nospace".toList ["1.0,1.0 2.0,1.0 2.0,2.0".toList] (by decide)⟩⟩

/-! ### Claim C2 -/

/-- C2 counterexample: an event whose first area has an unparseable polygon
and whose second area is valid and would match a registered subscriber
produces only the logged warning — the second area is never matched or
notified — although the same second area alone produces a notification. -/
theorem c2_counterexample :
    send_updates_for_event alwaysMatch oneRegistration mixedAreasEvent
      = [Action.warnInvalidPolygon "ev1"] ∧
    send_updates_for_event alwaysMatch oneRegistration goodAreaEvent
      = [Action.notify "user@example.org" "ev1" false] := by
  exact ⟨by decide, by decide⟩

/-- C2 (amended): if parsing any area's polygons fails, the warning is
logged and the whole event's processing stops — no area of the event is
matched and no notification is sent for it; the feed pass then continues
with the next event. -/
theorem c2_parse_failure_aborts_event (wt : Point → MultiPoly → Bool)
    (regs : List (String × Point)) (ev : EventData)
    (h : parseAreas ev.areas = none) :
    send_updates_for_event wt regs ev = [Action.warnInvalidPolygon ev.identifier] := by
  unfold send_updates_for_event
  rw [h]

theorem c2_witness :
    parseAreas mixedAreasEvent.areas = none ∧
    send_updates_for_event alwaysMatch oneRegistration mixedAreasEvent
      = [Action.warnInvalidPolygon mixedAreasEvent.identifier] :=
  ⟨by decide,
    c2_parse_failure_aborts_event alwaysMatch oneRegistration mixedAreasEvent (by decide)⟩

/-! ### Trace lemmas for the feed pass -/

theorem markSeen_not_mem_event (wt : Point → MultiPoly → Bool)
    (regs : List (String × Point)) (ev : EventData) (id : String) :
    Action.markSeen id ∉ send_updates_for_event wt regs ev := by
  intro h
  unfold send_updates_for_event at h
  cases hp : parseAreas ev.areas with
  | none => rw [hp] at h; simp at h
  | some mps =>
    rw [hp] at h
    rcases List.mem_map.mp h with ⟨j, _, hj⟩
    simp at hj

theorem seen_subset_feed (wt : Point → MultiPoly → Bool)
    (regs : List (String × Point)) (feed : List EventData) (seen : List String) :
    seen ⊆ (send_updates_for_feed wt regs seen feed).1 := by
  induction feed generalizing seen with
  | nil => exact fun a ha => ha
  | cons ev rest ih =>
    by_cases hm : ev.identifier ∈ seen
    · simp only [send_updates_for_feed, if_pos hm]
      exact ih seen
    · simp only [send_updates_for_feed, if_neg hm]
      exact fun a ha => ih (seen ++ [ev.identifier]) (List.mem_append_left _ ha)

theorem markSeen_not_in_trace_of_seen (wt : Point → MultiPoly → Bool)
    (regs : List (String × Point)) (feed : List EventData) (seen : List String)
    (id : String) (h : id ∈ seen) :
    Action.markSeen id ∉ (send_updates_for_feed wt regs seen feed).2 := by
  induction feed generalizing seen with
  | nil => exact List.not_mem_nil _
  | cons ev rest ih =>
    by_cases hm : ev.identifier ∈ seen
    · simp only [send_updates_for_feed, if_pos hm]
      exact ih seen h
    · simp only [send_updates_for_feed, if_neg hm]
      intro hmem
      rcases List.mem_append.mp hmem with hmem | hmem
      · rcases List.mem_append.mp hmem with hmem | hmem
        · exact markSeen_not_mem_event wt regs ev id hmem
        · rcases List.mem_singleton.mp hmem with heq
          have : id = ev.identifier := by
            injection heq
          exact hm (this ▸ h)
      · exact ih (seen ++ [ev.identifier]) (List.mem_append_left _ h) hmem

/-! ### Claim C9 -/

/-- C9: after one pass over a fetched body, every event identifier of the
body — including those whose polygons failed to parse, for which no
notification was sent — is in the seen set; and a pass over a feed whose
events are all already seen does nothing (no actions, seen set unchanged),
so such events are never re-evaluated on later polls. -/
theorem c9_every_event_recorded :
    (∀ (wt : Point → MultiPoly → Bool) (regs : List (String × Point))
        (seen : List String) (feed : List EventData) (ev : EventData),
      ev ∈ feed → ev.identifier ∈ (send_updates_for_feed wt regs seen feed).1) ∧
    (∀ (wt : Point → MultiPoly → Bool) (regs : List (String × Point))
        (seen : List String) (feed : List EventData),
      (∀ ev ∈ feed, ev.identifier ∈ seen) →
      send_updates_for_feed wt regs seen feed = (seen, [])) := by
  constructor
  · intro wt regs seen feed
    induction feed generalizing seen with
    | nil => intro ev h; exact absurd h (List.not_mem_nil ev)
    | cons e rest ih =>
      intro ev h
      rcases List.mem_cons.mp h with rfl | h
      · by_cases hm : ev.identifier ∈ seen
        · simp only [send_updates_for_feed, if_pos hm]
          exact seen_subset_feed wt regs rest seen hm
        · simp only [send_updates_for_feed, if_neg hm]
          exact seen_subset_feed wt regs rest (seen ++ [ev.identifier])
            (List.mem_append_right _ (List.mem_singleton.mpr rfl))
      · by_cases hm : e.identifier ∈ seen
        · simp only [send_updates_for_feed, if_pos hm]
          exact ih seen ev h
        · simp only [send_updates_for_feed, if_neg hm]
          exact ih (seen ++ [e.identifier]) ev h
  · intro wt regs seen feed h
    induction feed with
    | nil => rfl
    | cons e rest ih =>
      have hm : e.identifier ∈ seen := h e (List.mem_cons_self _ _)
      simp only [send_updates_for_feed, if_pos hm]
      exact ih (fun ev hev => h ev (List.mem_cons_of_mem _ hev))

theorem c9_witness :
    badAreaEvent ∈ [badAreaEvent] ∧
    "ev1" ∈ (send_updates_for_feed alwaysMatch [] [] [badAreaEvent]).1 ∧
    (∀ ev ∈ [badAreaEvent], ev.identifier ∈ ["ev1"]) ∧
    send_updates_for_feed alwaysMatch [] ["ev1"] [badAreaEvent] = (["ev1"], []) :=
  ⟨by decide,
    c9_every_event_recorded.1 alwaysMatch [] [] [badAreaEvent] badAreaEvent (by decide),
    by decide,
    c9_every_event_recorded.2 alwaysMatch [] ["ev1"] [badAreaEvent] (by decide)⟩

/-! ### Claim C4 -/

/-- C4: for any event of the fetched body (identifiers pairwise distinct)
not yet recorded as seen, the pass's trace contains the event's `mark_seen`
exactly once, placed immediately after the event's complete processing
output — never before, and regardless of whether the match oracle matched
anyone — and the identifier ends up in the seen set. -/
theorem c4_mark_seen_once_after_processing (wt : Point → MultiPoly → Bool)
    (regs : List (String × Point)) (seen : List String) (feed : List EventData)
    (ev : EventData) (hmem : ev ∈ feed) (hnew : ev.identifier ∉ seen)
    (hnd : (feed.map EventData.identifier).Nodup) :
    ((send_updates_for_feed wt regs seen feed).2.filter
        (fun a => a = Action.markSeen ev.identifier)).length = 1 ∧
    ev.identifier ∈ (send_updates_for_feed wt regs seen feed).1 ∧
    ∃ pre post, (send_updates_for_feed wt regs seen feed).2
      = pre ++ send_updates_for_event wt regs ev
          ++ Action.markSeen ev.identifier :: post := by
  induction feed generalizing seen with
  | nil => exact absurd hmem (List.not_mem_nil ev)
  | cons e rest ih =>
    rw [List.map_cons, List.nodup_cons] at hnd
    rcases List.mem_cons.mp hmem with rfl | hmem2
    · simp only [send_updates_for_feed, if_neg hnew]
      have hf1 : (send_updates_for_event wt regs ev).filter
          (fun a => a = Action.markSeen ev.identifier) = [] := by
        rw [List.filter_eq_nil_iff]
        intro a ha
        simp only [decide_eq_true_eq]
        intro heq
        exact markSeen_not_mem_event wt regs ev ev.identifier (heq ▸ ha)
      have hf3 : ((send_updates_for_feed wt regs (seen ++ [ev.identifier]) rest).2).filter
          (fun a => a = Action.markSeen ev.identifier) = [] := by
        rw [List.filter_eq_nil_iff]
        intro a ha
        simp only [decide_eq_true_eq]
        intro heq
        exact markSeen_not_in_trace_of_seen wt regs rest (seen ++ [ev.identifier])
          ev.identifier (List.mem_append_right _ (List.mem_singleton.mpr rfl)) (heq ▸ ha)
      refine ⟨?_, ?_, ?_⟩
      · rw [List.filter_append, List.filter_append, hf1, hf3,
          List.filter_cons_of_pos (by simp)]
        rfl
      · exact seen_subset_feed wt regs rest (seen ++ [ev.identifier])
          (List.mem_append_right _ (List.mem_singleton.mpr rfl))
      · exact ⟨[], (send_updates_for_feed wt regs (seen ++ [ev.identifier]) rest).2,
          by simp⟩
    · have hne_id : e.identifier ≠ ev.identifier := by
        intro h
        exact hnd.1 (h ▸ List.mem_map_of_mem EventData.identifier hmem2)
      by_cases hm : e.identifier ∈ seen
      · simp only [send_updates_for_feed, if_pos hm]
        exact ih seen hmem2 hnew hnd.2
      · simp only [send_updates_for_feed, if_neg hm]
        have hnew2 : ev.identifier ∉ seen ++ [e.identifier] := by
          intro h
          rcases List.mem_append.mp h with h | h
          · exact hnew h
          · exact hne_id (List.mem_singleton.mp h).symm
        obtain ⟨hcount, hmem1, pre, post, hdecomp⟩ := ih (seen ++ [e.identifier]) hmem2 hnew2 hnd.2
        have hf1 : (send_updates_for_event wt regs e).filter
            (fun a => a = Action.markSeen ev.identifier) = [] := by
          rw [List.filter_eq_nil_iff]
          intro a ha
          simp only [decide_eq_true_eq]
          intro heq
          exact markSeen_not_mem_event wt regs e ev.identifier (heq ▸ ha)
        refine ⟨?_, hmem1,
          (send_updates_for_event wt regs e ++ [Action.markSeen e.identifier]) ++ pre,
          post, ?_⟩
        · rw [List.filter_append, List.filter_append, hf1,
            List.filter_cons_of_neg (by simp [hne_id])]
          simpa using hcount
        · rw [hdecomp]
          simp [List.append_assoc]

theorem c4_witness :
    goodAreaEvent ∈ [goodAreaEvent] ∧
    goodAreaEvent.identifier ∉ ([] : List String) ∧
    ([goodAreaEvent].map EventData.identifier).Nodup ∧
    (((send_updates_for_feed alwaysMatch oneRegistration [] [goodAreaEvent]).2.filter
        (fun a => a = Action.markSeen goodAreaEvent.identifier)).length = 1 ∧
      goodAreaEvent.identifier
        ∈ (send_updates_for_feed alwaysMatch oneRegistration [] [goodAreaEvent]).1 ∧
      ∃ pre post, (send_updates_for_feed alwaysMatch oneRegistration [] [goodAreaEvent]).2
        = pre ++ send_updates_for_event alwaysMatch oneRegistration goodAreaEvent
            ++ Action.markSeen goodAreaEvent.identifier :: post) :=
  ⟨by decide, by decide, by decide,
    c4_mark_seen_once_after_processing alwaysMatch oneRegistration [] [goodAreaEvent]
      goodAreaEvent (by decide) (by decide) (by decide)⟩

/-! ### Claim C5 -/

theorem getFeed_setFeed_ne (l : List FeedRecord) (fr : FeedRecord) (url : String)
    (h : fr.url ≠ url) : getFeed (setFeed l fr) url = getFeed l url := by
  induction l with
  | nil =>
    unfold setFeed getFeed
    rw [List.find?_cons_of_neg _ (by simp [h])]
  | cons f fs ih =>
    by_cases hf : f.url = fr.url
    · simp only [setFeed, if_pos hf]
      unfold getFeed
      rw [List.find?_cons_of_neg _ (by simp [h]),
        List.find?_cons_of_neg _ (by simp [hf ▸ h])]
    · simp only [setFeed, if_neg hf]
      by_cases hu : f.url = url
      · unfold getFeed
        rw [List.find?_cons_of_pos _ (by simp [hu]), List.find?_cons_of_pos _ (by simp [hu])]
      · unfold getFeed
        rw [List.find?_cons_of_neg _ (by simp [hu]), List.find?_cons_of_neg _ (by simp [hu])]
        exact ih

/-- C5 (amended): a non-200 status response leaves the stored validators of
that feed unchanged in any committed outcome, and a cycle in which every
feed answers a non-200 status commits with the database untouched; but a
transport exception while fetching one feed aborts the whole cycle before
`db.commit()` — the remaining feeds are not processed and nothing is
committed that cycle. -/
theorem c5_non_ok_preserves_validators :
    (∀ (fetch : String → FetchResult) (wt : Point → MultiPoly → Bool)
        (urls : List String) (db db' : DbState) (url : String) (code : Nat),
      fetch url = FetchResult.status code →
      update_feeds fetch wt urls db = some db' →
      getFeed db'.feeds url = getFeed db.feeds url) ∧
    (∀ (fetch : String → FetchResult) (wt : Point → MultiPoly → Bool)
        (urls : List String) (db : DbState),
      (∀ u ∈ urls, ∃ code, fetch u = FetchResult.status code) →
      update_feeds fetch wt urls db = some db) ∧
    (∀ (fetch : String → FetchResult) (wt : Point → MultiPoly → Bool)
        (url : String) (rest : List String) (db : DbState),
      fetch url = FetchResult.netError →
      update_feeds fetch wt (url :: rest) db = none) := by
  refine ⟨?_, ?_, ?_⟩
  · intro fetch wt urls
    induction urls with
    | nil =>
      intro db db' url code hst hupd
      simp only [update_feeds] at hupd
      cases hupd
      rfl
    | cons u rest ih =>
      intro db db' url code hst hupd
      simp only [update_feeds] at hupd
      cases hf : fetch u with
      | netError =>
        rw [hf] at hupd
        exact Option.noConfusion hupd
      | status c =>
        rw [hf] at hupd
        exact ih db db' url code hst hupd
      | ok lm et body =>
        rw [hf] at hupd
        have hne : u ≠ url := by
          intro h
          rw [h, hst] at hf
          exact FetchResult.noConfusion hf
        have h1 := ih _ db' url code hst hupd
        rw [h1]
        exact getFeed_setFeed_ne db.feeds _ url hne
  · intro fetch wt urls db h
    induction urls with
    | nil => rfl
    | cons u rest ih =>
      obtain ⟨c, hc⟩ := h u (List.mem_cons_self _ _)
      simp only [update_feeds]
      rw [hc]
      exact ih (fun v hv => h v (List.mem_cons_of_mem _ hv))
  · intro fetch wt url rest db hnet
    simp only [update_feeds]
    rw [hnet]

/-- C5 counterexample: with two configured feeds where the first fetch
raises a transport exception and the second would answer 200, the cycle
aborts with nothing committed — the second feed's validators are never
stored — although polling the second feed alone stores them. -/
theorem c5_counterexample :
    update_feeds netErrorFetch alwaysMatch
        ["https://alerts.example/one", "https://alerts.example/two"]
        { registrations := [], feeds := [], seen := [] } = none ∧
    update_feeds netErrorFetch alwaysMatch
        ["https://alerts.example/two"]
        { registrations := [], feeds := [], seen := [] }
      = some { registrations := [],
               feeds := [{ url := "https://alerts.example/two",
                           last_modified := none, etag := none }],
               seen := [] } := by
  exact ⟨by decide, by decide⟩

theorem c5_witness :
    status404Fetch "https://alerts.example/err" = FetchResult.status 404 ∧
    update_feeds status404Fetch alwaysMatch
        ["https://alerts.example/err", "https://alerts.example/ok"]
        { registrations := [], feeds := [], seen := [] }
      = some { registrations := [],
               feeds := [{ url := "https://alerts.example/ok",
                           last_modified := none, etag := none }],
               seen := [] } ∧
    getFeed ({ registrations := [],
               feeds := [{ url := "https://alerts.example/ok",
                           last_modified := none, etag := none }],
               seen := [] } : DbState).feeds "https://alerts.example/err"
      = getFeed ({ registrations := [], feeds := [], seen := [] } : DbState).feeds
          "https://alerts.example/err" :=
  ⟨by decide, by decide,
    c5_non_ok_preserves_validators.1 status404Fetch alwaysMatch
      ["https://alerts.example/err", "https://alerts.example/ok"]
      { registrations := [], feeds := [], seen := [] }
      { registrations := [],
        feeds := [{ url := "https://alerts.example/ok",
                    last_modified := none, etag := none }],
        seen := [] }
      "https://alerts.example/err" 404 (by decide) (by decide)⟩

end NinaXmpp
